import Mathlib

/-! Verification of the triagebot scheduling and decision-workflow core.
The scheduled-jobs store (src/db/jobs.rs), the decision workflow
(src/handlers/decision.rs) and the decision-resolution job handler are
shallowly embedded: timestamps are integer seconds, the jobs table is a list
of rows, BTreeMaps are key-sorted association lists, and database or GitHub
calls become explicit inputs and recorded effects. -/

namespace Triagebot

/-- DAY_IN_SECONDS constant from src/db/jobs.rs. -/
def DAY_IN_SECONDS : Int := 86400

/-- HOUR_IN_SECONDS constant from src/db/jobs.rs. -/
def HOUR_IN_SECONDS : Int := 3600

/-- MINUTE_IN_SECONDS constant from src/db/jobs.rs. -/
def MINUTE_IN_SECONDS : Int := 60

/-- The job_type enum of src/db/jobs.rs. -/
inductive JobType
  | cron
  | single_execution
deriving DecidableEq, Repr

/-- The cron_unit enum of src/db/jobs.rs. -/
inductive CronUnit
  | day
  | hour
  | minute
  | second
deriving DecidableEq, Repr

/-- A row of the jobs table (struct Job in src/db/jobs.rs). The opaque
serde_json metadata blob is modelled as a string. -/
structure Job where
  id : Nat
  name : String
  job_type : JobType
  expected_time : Int
  cron_period : Option Int
  cron_unit : Option CronUnit
  metadata : String
  executed_at : Option Int
  error_message : Option String
deriving DecidableEq, Repr

/-- get_duration_from_cron of src/db/jobs.rs: Duration::seconds(period)
scaled by the unit constant, expressed in seconds. -/
def get_duration_from_cron (cron_period : Int) (cron_unit : CronUnit) : Int :=
  match cron_unit with
  | .day => cron_period * DAY_IN_SECONDS
  | .hour => cron_period * HOUR_IN_SECONDS
  | .minute => cron_period * MINUTE_IN_SECONDS
  | .second => cron_period

/-- The WHERE clause of get_jobs_to_execute, under SQL three-valued logic: a
NULL executed_at satisfies no comparison, so the second disjunct demands a
present executed_at. -/
def jobDue (now : Int) (j : Job) : Bool :=
  decide (j.expected_time ≤ now) &&
    (j.error_message.isNone ||
      (match j.executed_at with
        | some e => decide (e ≤ now - 60 * 60)
        | none => false))

/-- get_jobs_to_execute of src/db/jobs.rs: SELECT over the jobs table with
the due-jobs predicate. -/
def get_jobs_to_execute (jobs : List Job) (now : Int) : List Job :=
  jobs.filter (jobDue now)

/-- Whether a row matches the (name, expected_time) uniqueness key used by
the ON CONFLICT clause of insert_job. -/
def sameKey (name : String) (expected_time : Int) (j : Job) : Bool :=
  j.name == name && j.expected_time == expected_time

/-- A freshly inserted row: executed_at and error_message start NULL, the id
is generated at creation. -/
def newJob (id : Nat) (name : String) (job_type : JobType) (expected_time : Int)
    (cron_period : Option Int) (cron_unit : Option CronUnit) (metadata : String) : Job :=
  { id := id, name := name, job_type := job_type, expected_time := expected_time,
    cron_period := cron_period, cron_unit := cron_unit, metadata := metadata,
    executed_at := none, error_message := none }

/-- insert_job of src/db/jobs.rs: INSERT with
ON CONFLICT (name, expected_time) DO UPDATE SET metadata = EXCLUDED.metadata.
On conflict only the metadata of the conflicting row changes; otherwise a new
row is appended. -/
def insert_job (jobs : List Job) (id : Nat) (name : String) (job_type : JobType)
    (expected_time : Int) (cron_period : Option Int) (cron_unit : Option CronUnit)
    (metadata : String) : List Job :=
  if jobs.any (sameKey name expected_time) then
    jobs.map (fun j => if sameKey name expected_time j then { j with metadata := metadata } else j)
  else
    jobs ++ [newJob id name job_type expected_time cron_period cron_unit metadata]

/-- update_job_error_message of src/db/jobs.rs: sets error_message of the row
with the given id; executed_at is untouched. -/
def update_job_error_message (jobs : List Job) (id : Nat) (message : String) : List Job :=
  jobs.map (fun j => if j.id = id then { j with error_message := some message } else j)

/-- update_job_executed_at of src/db/jobs.rs: sets executed_at of the row
with the given id to now(). -/
def update_job_executed_at (jobs : List Job) (id : Nat) (now : Int) : List Job :=
  jobs.map (fun j => if j.id = id then { j with executed_at := some now } else j)

/-- A job due for execution with no failure recorded. -/
def dueJobSample : Job :=
  { id := 0, name := "docs_update", job_type := .cron, expected_time := 0,
    cron_period := some 1, cron_unit := some .day, metadata := "m",
    executed_at := none, error_message := none }

/-- A job that failed long ago: error recorded, executed more than an hour
before the sample poll time. -/
def erroredJobSample : Job :=
  { id := 1, name := "late", job_type := .single_execution, expected_time := 0,
    cron_period := none, cron_unit := none, metadata := "m",
    executed_at := some 0, error_message := some "failed" }

/-- A job with an error recorded but no executed_at ever set. -/
def stuckJobSample : Job :=
  { id := 2, name := "stuck", job_type := .single_execution, expected_time := 0,
    cron_period := none, cron_unit := none, metadata := "m",
    executed_at := none, error_message := some "failed" }

/-- Vote outcomes (Resolution in the parser crate, consumed by
src/handlers/decision.rs). -/
inductive Resolution
  | merge
  | hold
deriving DecidableEq, Repr

/-- Modelled from the spec: the display name of a Resolution as rendered in
tables and labels. The parser crate defining the Display instance is not
under src; the rendering tests in src/handlers/decision.rs fix the lowercase
names merge and hold. -/
def Resolution.display : Resolution → String
  | .merge => "merge"
  | .hold => "hold"

/-- A single cast vote (UserStatus), with the fields constructed and read by
src/handlers/decision.rs. -/
structure UserStatus where
  comment_id : String
  text : String
  resolution : Resolution
deriving DecidableEq, Repr

/-- Association-list lookup, modelling BTreeMap::get. -/
def mapLookup {α : Type} : List (String × α) → String → Option α
  | [], _ => none
  | (k, v) :: rest, q => if k = q then some v else mapLookup rest q

/-- Key-ordered association-list insert, modelling BTreeMap::insert: keys are
kept sorted and unique, and an existing key's value is replaced. -/
def mapInsert {α : Type} (k : String) (v : α) : List (String × α) → List (String × α)
  | [] => [(k, v)]
  | (k2, v2) :: rest =>
    if k < k2 then (k, v) :: (k2, v2) :: rest
    else if k = k2 then (k, v) :: rest
    else (k2, v2) :: mapInsert k v rest

/-- The strike-through links for one participant's past votes, in order, as
pushed by the history loop of build_status_comment. -/
def histCell : List UserStatus → String
  | [] => ""
  | s :: rest =>
      " [~~" ++ s.resolution.display ++ "~~](" ++ s.comment_id ++ ") " ++ histCell rest

/-- The bold link for a participant's current vote, or the empty string when
no vote was cast. -/
def currentCell : Option UserStatus → String
  | some s => "[**" ++ s.resolution.display ++ "**](" ++ s.comment_id ++ ")"
  | none => ""

/-- The row loop of build_status_comment: each participant of current appends
one table row to the accumulator; a participant missing from history aborts
with the inconsistency error. -/
def buildRows (history : List (String × List UserStatus)) :
    List (String × Option UserStatus) → String → Except String String
  | [], acc => .ok acc
  | (user, status) :: rest, acc =>
    match mapLookup history user with
    | some statuses =>
        buildRows history rest
          (acc ++ ("\n| @" ++ user ++ " |" ++ histCell statuses ++ " " ++
            currentCell status ++ " |"))
    | none => .error ("user " ++ user ++ " not present in history statuses list")

/-- build_status_comment of src/handlers/decision.rs. -/
def build_status_comment (history : List (String × List UserStatus))
    (current : List (String × Option UserStatus)) : Except String String :=
  buildRows history current "| Team member | State |\n|-------------|-------|"

/-- Spec-side description of one rendered row (spec section 4.4): the
participant mention, the strike-through history links in order, then the
bold current-vote link or an empty cell. -/
def specRow (history : List (String × List UserStatus)) (user : String)
    (status : Option UserStatus) : String :=
  "\n| @" ++ user ++ " |" ++ histCell ((mapLookup history user).getD []) ++ " " ++
    currentCell status ++ " |"

/-- Spec-side concatenation of all rows, one per participant, in the
iteration order of current. -/
def specRows (history : List (String × List UserStatus)) :
    List (String × Option UserStatus) → String
  | [] => ""
  | (user, status) :: rest => specRow history user status ++ specRows history rest

/-- A member of a team roster, reduced to the github login read by
handle_command. -/
structure TeamMember where
  github : String
deriving DecidableEq, Repr

/-- A team roster returned by the directory lookup. -/
structure Team where
  members : List TeamMember
deriving DecidableEq, Repr

/-- Per-issue ballot state as persisted by insert_issue_decision_state. -/
structure DecisionState where
  issue_number : Nat
  initiator : String
  start_date : Int
  end_date : Int
  current : List (String × Option UserStatus)
  history : List (String × List UserStatus)
  resolution : Resolution
deriving DecidableEq, Repr

/-- DecisionProcessActionMetadata of src/handlers/decision.rs. -/
structure DecisionProcessActionMetadata where
  message : String
  get_issue_url : String
  status : Resolution
deriving DecidableEq, Repr

/-- The scheduling request handed to insert_job by handle_command. The
job_type field is Modelled from the spec: the four-argument insert_job
overload invoked at decision.rs line 129 is not under src, and the spec fixes
the scheduled job's kind as SingleExecution. -/
structure JobRequest where
  name : String
  job_type : JobType
  expected_time : Int
  metadata : DecisionProcessActionMetadata
deriving DecidableEq, Repr

/-- The inputs of one handle_command invocation: the parsed command, the
event data, and the responses of the database and GitHub collaborators
(is_team_member none models a failed membership lookup, unwrapped to false
by the code). -/
structure CommandInput where
  issue_number : Nat
  user_login : String
  comment_url : String
  comment_body : String
  resolution : Resolution
  team_name : Option String
  existing_state : Option DecisionState
  is_team_member : Option Bool
  team_lookup : Except Unit (Option Team)
  repo_url : String
  now : Int
deriving Repr

/-- The observable effects of one handle_command invocation: comments posted,
ballot state persisted, job scheduled, labels applied, and the error carried
by an Err return (none for Ok). -/
structure CommandResult where
  comments : List String
  inserted_state : Option DecisionState
  inserted_job : Option JobRequest
  labels : List String
  error : Option String
deriving Repr

/-- The two BTreeMaps built by the roster loop of handle_command: every team
member is inserted into current with no vote and into history with an empty
sequence. -/
def rosterMaps (members : List TeamMember) :
    List (String × Option UserStatus) × List (String × List UserStatus) :=
  members.foldl
    (fun p mem => (mapInsert mem.github none p.1, mapInsert mem.github [] p.2))
    ([], [])

/-- handle_command of src/handlers/decision.rs, as a function from the
invocation inputs to its effects. -/
def handle_command (inp : CommandInput) : CommandResult :=
  match inp.existing_state with
  | some _ =>
      { comments := ["We don\x27t support having more than one vote yet. Coming soon :)"],
        inserted_state := none, inserted_job := none, labels := [], error := none }
  | none =>
      if !(inp.is_team_member.getD false) then
        { comments := ["Only team members can be part of the decision process."],
          inserted_state := none, inserted_job := none, labels := [], error := none }
      else
        match inp.team_name with
        | none =>
            { comments := ["In the first vote, is necessary to specify the team name that will be involved in the decision process."],
              inserted_state := none, inserted_job := none, labels := [], error := none }
        | some _ =>
            match inp.team_lookup with
            | .ok (some team) =>
                let start_date := inp.now
                let end_date := start_date + 10 * DAY_IN_SECONDS
                let maps := rosterMaps team.members
                let vote : UserStatus :=
                  { comment_id := inp.comment_url, text := inp.comment_body,
                    resolution := inp.resolution }
                let current := mapInsert inp.user_login (some vote) maps.1
                let history := mapInsert inp.user_login ([] : List UserStatus) maps.2
                let state : DecisionState :=
                  { issue_number := inp.issue_number, initiator := inp.user_login,
                    start_date := start_date, end_date := end_date,
                    current := current, history := history,
                    resolution := inp.resolution }
                let job : JobRequest :=
                  { name := "decision_process_action", job_type := .single_execution,
                    expected_time := end_date,
                    metadata :=
                      { message := "some message",
                        get_issue_url :=
                          inp.repo_url ++ "/issues/" ++ toString inp.issue_number,
                        status := inp.resolution } }
                match build_status_comment history current with
                | .ok comment =>
                    { comments := [comment], inserted_state := some state,
                      inserted_job := some job, labels := [inp.resolution.display],
                      error := none }
                | .error e =>
                    { comments := [], inserted_state := some state,
                      inserted_job := some job, labels := [], error := some e }
            | _ =>
                { comments := ["Failed to resolve to a known team."],
                  inserted_state := none, inserted_job := none, labels := [],
                  error := none }

/-- The issue object fetched back from the tracker, reduced to the number
used by the handler. -/
structure Issue where
  number : Nat
deriving DecidableEq, Repr

/-- The observable outcome of one DecisionProcessJob::run invocation that
returned success: the ping comments posted (recipients and body) and whether
a fetch failure was logged. -/
structure RunOutcome where
  pings : List (List String × String)
  logged_error : Bool
deriving DecidableEq, Repr

/-- DecisionProcessJob::run of src/handlers/decision.rs, over the parsed
metadata, the result of the issue fetch, and the decision-state lookup by
issue number; the none result models the panic of the unwrap on a missing
state. -/
def decision_process_run (metadata : DecisionProcessActionMetadata)
    (fetch : Except String Issue) (states : Nat → Option DecisionState) :
    Option RunOutcome :=
  match fetch with
  | .error _ => some { pings := [], logged_error := true }
  | .ok issue =>
      match states issue.number with
      | some st =>
          some { pings := [(st.current.map Prod.fst,
                   "The final comment period has resolved, with a decision to **" ++
                     metadata.status.display ++ "**. Ping involved people once again.")],
                 logged_error := false }
      | none => none

/-- A cast merge vote used by the concrete examples. -/
def mergeStatusSample : UserStatus :=
  { comment_id := "https://some-comment-id-for-merge.com",
    text := "this is my argument for making this decision", resolution := .merge }

/-- The history of the Barbara end-to-end example: a hold vote at link A then
a merge vote at link B. -/
def barbaraHistorySample : List (String × List UserStatus) :=
  [("Barbara", [{ comment_id := "A", text := "t", resolution := .hold },
                { comment_id := "B", text := "t", resolution := .merge }])]

/-- The current mapping of the Barbara example: a merge vote at link B. -/
def barbaraCurrentSample : List (String × Option UserStatus) :=
  [("Barbara", some { comment_id := "B", text := "t", resolution := .merge })]

/-- A roster with two members, used by the workflow examples. -/
def sampleTeam : Team :=
  { members := [{ github := "alice" }, { github := "carol" }] }

/-- A first-vote invocation in which every collaborator answers favourably. -/
def sampleVoteInput : CommandInput :=
  { issue_number := 7, user_login := "bob", comment_url := "https://example.com/c/1",
    comment_body := "lets merge", resolution := .merge, team_name := some "lang",
    existing_state := none, is_team_member := some true,
    team_lookup := .ok (some sampleTeam), repo_url := "https://example.com/repo",
    now := 1000 }

/-- An already-open ballot used as the pre-existing state of the repeat-vote
example and as the fetched state of the resolution-handler example. -/
def sampleState : DecisionState :=
  { issue_number := 7, initiator := "bob", start_date := 0, end_date := 864000,
    current := [("alice", none), ("bob", some mergeStatusSample)],
    history := [("alice", []), ("bob", [])], resolution := .merge }

/-- The sample invocation repeated while the sample ballot is open. -/
def sampleRepeatInput : CommandInput :=
  { sampleVoteInput with existing_state := some sampleState }

/-- The sample invocation from a user failing the membership check. -/
def sampleNonMemberInput : CommandInput :=
  { sampleVoteInput with is_team_member := some false }

/-- The resolution-job metadata of the sample ballot. -/
def sampleMetadata : DecisionProcessActionMetadata :=
  { message := "some message", get_issue_url := "https://example.com/repo/issues/7",
    status := .merge }

/-- The fetched live issue of the sample ballot. -/
def sampleIssue : Issue := { number := 7 }

/-- A decision-state store holding exactly the sample ballot. -/
def sampleStates : Nat → Option DecisionState :=
  fun n => if n = 7 then some sampleState else none

/-- The sample invocation when the membership lookup itself fails. -/
def sampleLookupFailInput : CommandInput :=
  { sampleVoteInput with is_team_member := none }

/-- History lacking Martin, as in the inconsistency test. -/
def martinHistorySample : List (String × List UserStatus) :=
  [("Barbara", [])]

/-- Current mapping containing Martin, who is absent from the history. -/
def martinCurrentSample : List (String × Option UserStatus) :=
  [("Barbara", some mergeStatusSample), ("Martin", some mergeStatusSample)]

theorem jobDue_iff (now : Int) (j : Job) :
    jobDue now j = true ↔
      j.expected_time ≤ now ∧
        (j.error_message = none ∨ ∃ e, j.executed_at = some e ∧ e ≤ now - 60 * 60) := by
  unfold jobDue
  cases hex : j.executed_at with
  | none => simp [hex, Option.isNone_iff_eq_none]
  | some e => simp [hex, Option.isNone_iff_eq_none]

theorem mem_get_jobs_to_execute (jobs : List Job) (now : Int) (j : Job) :
    j ∈ get_jobs_to_execute jobs now ↔ j ∈ jobs ∧ jobDue now j = true := by
  unfold get_jobs_to_execute
  exact List.mem_filter

/-- C9: get_duration_from_cron maps (period, Second) to period seconds,
(period, Minute) to period times 60, (period, Hour) to period times 3600 and
(period, Day) to period times 86400 seconds; it is a total pure function with
no error outcome, and the identities hold at every integer period, so a
negative period is not clamped (witnessed by the explicit negative instance). -/
theorem get_duration_from_cron_spec (period : Int) :
    get_duration_from_cron period .second = period ∧
    get_duration_from_cron period .minute = period * 60 ∧
    get_duration_from_cron period .hour = period * 3600 ∧
    get_duration_from_cron period .day = period * 86400 ∧
    get_duration_from_cron (-1) .day = -86400 :=
  ⟨rfl, rfl, rfl, rfl, by decide⟩

/-- C2: get_jobs_to_execute returns exactly the jobs whose expected_time is
at most now and which either carry no error_message or were last executed at
least 60 minutes before now; in particular it never returns a job whose
expected_time is after now, and a job with a recorded error is only returned
once 60 minutes have elapsed since its executed_at. -/
theorem get_jobs_to_execute_spec (jobs : List Job) (now : Int) (j : Job) :
    (j ∈ get_jobs_to_execute jobs now ↔
      j ∈ jobs ∧ j.expected_time ≤ now ∧
        (j.error_message = none ∨ ∃ e, j.executed_at = some e ∧ e ≤ now - 60 * 60)) ∧
    (j ∈ get_jobs_to_execute jobs now → j.expected_time ≤ now) ∧
    (j ∈ get_jobs_to_execute jobs now → j.error_message ≠ none →
      ∃ e, j.executed_at = some e ∧ e ≤ now - 60 * 60) := by
  refine ⟨?_, ?_, ?_⟩
  · rw [mem_get_jobs_to_execute, jobDue_iff]
  · intro h
    exact ((jobDue_iff now j).mp ((mem_get_jobs_to_execute jobs now j).mp h).2).1
  · intro h herr
    rcases ((jobDue_iff now j).mp ((mem_get_jobs_to_execute jobs now j).mp h).2).2 with
      he | hex
    · exact absurd he herr
    · exact hex

/-- Witness for C2: a never-failed due job is selected at poll time 100000,
and a failed job last executed more than an hour before then satisfies the
backoff condition. -/
theorem get_jobs_to_execute_spec_witness :
    dueJobSample.expected_time ≤ 100000 ∧
      ∃ e, erroredJobSample.executed_at = some e ∧ e ≤ 100000 - 60 * 60 :=
  ⟨(get_jobs_to_execute_spec [dueJobSample] 100000 dueJobSample).2.1 (by decide),
    (get_jobs_to_execute_spec [erroredJobSample] 100000 erroredJobSample).2.2 (by decide)
      (by decide)⟩

/-- C10: a job whose error_message is set but whose executed_at was never
recorded is excluded from get_jobs_to_execute at every poll time: the
executed_at comparison of the selection predicate is unsatisfiable against a
NULL executed_at, so the 60-minute backoff window never elapses for it. -/
theorem error_without_executed_at_never_due (jobs : List Job) (now : Int) (j : Job)
    (herr : j.error_message ≠ none) (hex : j.executed_at = none) :
    j ∉ get_jobs_to_execute jobs now := by
  intro hmem
  rcases ((jobDue_iff now j).mp ((mem_get_jobs_to_execute jobs now j).mp hmem).2).2 with
    he | ⟨e, hee, -⟩
  · exact herr he
  · rw [hex] at hee
    exact Option.noConfusion hee

/-- Witness for C10: the stuck sample job (error set, never executed) is not
selected even at a very late poll time. -/
theorem error_without_executed_at_never_due_witness :
    stuckJobSample ∉ get_jobs_to_execute [stuckJobSample] 100000000 :=
  error_without_executed_at_never_due [stuckJobSample] 100000000 stuckJobSample
    (by decide) rfl

theorem sameKey_metadata_update (name : String) (t : Int) (j : Job) (m : String) :
    sameKey name t { j with metadata := m } = sameKey name t j := rfl

theorem updateMetadata_preserves_key (name : String) (t : Int) (m : String) :
    (sameKey name t) ∘
        (fun j => if sameKey name t j then { j with metadata := m } else j) =
      sameKey name t := by
  funext j
  by_cases h : sameKey name t j = true
  · simp [Function.comp, h, sameKey_metadata_update]
  · simp [Function.comp, h]

theorem countKey_map_update (name : String) (t : Int) (m : String) (l : List Job) :
    (l.map (fun j => if sameKey name t j then { j with metadata := m } else j)).countP
        (sameKey name t) = l.countP (sameKey name t) := by
  rw [List.countP_map, updateMetadata_preserves_key]

theorem insert_job_of_any (jobs : List Job) (id : Nat) (name : String) (ty : JobType)
    (t : Int) (cp : Option Int) (cu : Option CronUnit) (m : String)
    (h : jobs.any (sameKey name t) = true) :
    insert_job jobs id name ty t cp cu m =
      jobs.map (fun j => if sameKey name t j then { j with metadata := m } else j) := by
  unfold insert_job
  rw [if_pos h]

theorem insert_job_of_not_any (jobs : List Job) (id : Nat) (name : String) (ty : JobType)
    (t : Int) (cp : Option Int) (cu : Option CronUnit) (m : String)
    (h : ¬jobs.any (sameKey name t) = true) :
    insert_job jobs id name ty t cp cu m =
      jobs ++ [newJob id name ty t cp cu m] := by
  unfold insert_job
  rw [if_neg h]

theorem newJob_sameKey (id : Nat) (name : String) (ty : JobType) (t : Int)
    (cp : Option Int) (cu : Option CronUnit) (m : String) :
    sameKey name t (newJob id name ty t cp cu m) = true := by
  simp [sameKey, newJob]

theorem insert_job_has_key (jobs : List Job) (id : Nat) (name : String) (ty : JobType)
    (t : Int) (cp : Option Int) (cu : Option CronUnit) (m : String) :
    (insert_job jobs id name ty t cp cu m).any (sameKey name t) = true := by
  by_cases h : jobs.any (sameKey name t) = true
  · rw [insert_job_of_any jobs id name ty t cp cu m h, List.any_map,
      updateMetadata_preserves_key]
    exact h
  · rw [insert_job_of_not_any jobs id name ty t cp cu m h, List.any_append]
    simp [newJob_sameKey]

/-- C3: upserting twice with the same (name, expected_time) key and differing
metadata, starting from a table in which the key is unique, leaves exactly
one row for that key, that row holds the metadata of the second upsert, and
the second upsert is exactly a metadata-only rewrite of the first result
(appending no row). -/
theorem insert_job_upsert_semantics (jobs : List Job) (id1 id2 : Nat) (name : String)
    (ty : JobType) (t : Int) (cp : Option Int) (cu : Option CronUnit) (m1 m2 : String)
    (_hm : m1 ≠ m2) (huniq : jobs.countP (sameKey name t) ≤ 1) :
    ((insert_job (insert_job jobs id1 name ty t cp cu m1) id2 name ty t cp cu m2).countP
        (sameKey name t) = 1) ∧
    (∀ j ∈ insert_job (insert_job jobs id1 name ty t cp cu m1) id2 name ty t cp cu m2,
        sameKey name t j = true → j.metadata = m2) ∧
    (insert_job (insert_job jobs id1 name ty t cp cu m1) id2 name ty t cp cu m2 =
      (insert_job jobs id1 name ty t cp cu m1).map
        (fun j => if sameKey name t j then { j with metadata := m2 } else j)) := by
  have hany : (insert_job jobs id1 name ty t cp cu m1).any (sameKey name t) = true :=
    insert_job_has_key jobs id1 name ty t cp cu m1
  have ht2 : insert_job (insert_job jobs id1 name ty t cp cu m1) id2 name ty t cp cu m2 =
      (insert_job jobs id1 name ty t cp cu m1).map
        (fun j => if sameKey name t j then { j with metadata := m2 } else j) :=
    insert_job_of_any (insert_job jobs id1 name ty t cp cu m1) id2 name ty t cp cu m2 hany
  have hcount1 : (insert_job jobs id1 name ty t cp cu m1).countP (sameKey name t) = 1 := by
    by_cases hA : jobs.any (sameKey name t) = true
    · rw [insert_job_of_any jobs id1 name ty t cp cu m1 hA, countKey_map_update]
      have hpos : 0 < jobs.countP (sameKey name t) := by
        rcases List.any_eq_true.mp hA with ⟨a, ha, hpa⟩
        exact List.countP_pos_iff.mpr ⟨a, ha, hpa⟩
      omega
    · rw [insert_job_of_not_any jobs id1 name ty t cp cu m1 hA]
      have hA' : jobs.any (sameKey name t) = false := by
        cases hb : jobs.any (sameKey name t) with
        | false => rfl
        | true => exact absurd hb hA
      have hz : jobs.countP (sameKey name t) = 0 :=
        List.countP_eq_zero.mpr (List.any_eq_false.mp hA')
      rw [List.countP_append, hz]
      simp [List.countP_cons, newJob_sameKey]
  refine ⟨?_, ?_, ht2⟩
  · rw [ht2, countKey_map_update, hcount1]
  · intro j hj hkey
    rw [ht2] at hj
    rcases List.mem_map.mp hj with ⟨j0, hj0, rfl⟩
    by_cases hk0 : sameKey name t j0 = true
    · simp [hk0]
    · simp [hk0] at hkey

/-- Witness for C3: two upserts of the decision job into an empty table. -/
theorem insert_job_upsert_semantics_witness :
    ((insert_job (insert_job [] 0 "decision_process_action" .single_execution 5 none none "a")
        1 "decision_process_action" .single_execution 5 none none "b").countP
      (sameKey "decision_process_action" 5) = 1) :=
  (insert_job_upsert_semantics [] 0 1 "decision_process_action" .single_execution 5 none
      none "a" "b" (by decide) (by decide)).1

theorem mapLookup_mapInsert {α : Type} (k q : String) (v : α) (m : List (String × α)) :
    mapLookup (mapInsert k v m) q = if q = k then some v else mapLookup m q := by
  induction m with
  | nil =>
      by_cases h : q = k
      · simp [mapInsert, mapLookup, h]
      · simp [mapInsert, mapLookup, h, Ne.symm h]
  | cons kv rest ih =>
      obtain ⟨k2, v2⟩ := kv
      by_cases h1 : k < k2
      · by_cases h3 : q = k
        · simp [mapInsert, mapLookup, h1, h3]
        · simp [mapInsert, mapLookup, h1, h3, Ne.symm h3]
      · by_cases h2 : k = k2
        · by_cases h3 : q = k
          · simp [mapInsert, mapLookup, h1, h2, h3]
          · have h5 : ¬(q = k2) := fun e => h3 (e.trans h2.symm)
            have h7 : ¬(k2 = q) := fun e => h5 e.symm
            simp [mapInsert, mapLookup, h1, h2, h3, Ne.symm h3, h5, h7]
        · by_cases h3 : q = k
          · have h6 : ¬(k2 = k) := fun e => h2 e.symm
            rw [h3] at ih
            simp only [if_pos rfl] at ih
            simp [mapInsert, mapLookup, h1, h2, h3, h6, ih]
          · simp [mapInsert, mapLookup, h1, h2, h3, ih]

theorem mapInsert_keys_mem {α : Type} (k : String) (v : α) (m : List (String × α)) :
    ∀ x ∈ (mapInsert k v m).map Prod.fst, x = k ∨ x ∈ m.map Prod.fst := by
  induction m with
  | nil => simp [mapInsert]
  | cons kv rest ih =>
      obtain ⟨k2, v2⟩ := kv
      by_cases h1 : k < k2
      · intro x hx
        simp only [mapInsert, if_pos h1, List.map_cons, List.mem_cons] at hx ⊢
        tauto
      · by_cases h2 : k = k2
        · intro x hx
          simp only [mapInsert, if_neg h1, if_pos h2, List.map_cons, List.mem_cons] at hx ⊢
          tauto
        · intro x hx
          simp only [mapInsert, if_neg h1, if_neg h2, List.map_cons, List.mem_cons] at hx ⊢
          rcases hx with hx | hx
          · tauto
          · rcases ih x hx with hx2 | hx2 <;> tauto

theorem mapInsert_keys_sorted {α : Type} (k : String) (v : α) (m : List (String × α))
    (h : (m.map Prod.fst).Sorted (fun a b => a < b)) :
    ((mapInsert k v m).map Prod.fst).Sorted (fun a b => a < b) := by
  induction m with
  | nil => simp [mapInsert]
  | cons kv rest ih =>
      obtain ⟨k2, v2⟩ := kv
      rw [List.map_cons, List.sorted_cons] at h
      by_cases h1 : k < k2
      · simp only [mapInsert, if_pos h1, List.map_cons, List.sorted_cons]
        refine ⟨?_, h.1, h.2⟩
        intro b hb
        rcases List.mem_cons.mp hb with hb | hb
        · exact hb ▸ h1
        · exact lt_trans h1 (h.1 b hb)
      · by_cases h2 : k = k2
        · simp only [mapInsert, if_neg h1, if_pos h2, List.map_cons, List.sorted_cons]
          exact ⟨fun b hb => h2 ▸ h.1 b hb, h.2⟩
        · simp only [mapInsert, if_neg h1, if_neg h2, List.map_cons, List.sorted_cons]
          have hk2 : k2 < k := lt_of_le_of_ne (not_lt.mp h1) fun e => h2 e.symm
          refine ⟨?_, ih h.2⟩
          intro b hb
          rcases mapInsert_keys_mem k v rest b hb with hb2 | hb2
          · exact hb2 ▸ hk2
          · exact h.1 b hb2

theorem rosterFold_lookup (members : List TeamMember)
    (c : List (String × Option UserStatus)) (h : List (String × List UserStatus))
    (u : String) :
    (mapLookup
        (members.foldl
          (fun p mem => (mapInsert mem.github none p.1, mapInsert mem.github [] p.2))
          (c, h)).1 u =
      if u ∈ members.map TeamMember.github then some none else mapLookup c u) ∧
    (mapLookup
        (members.foldl
          (fun p mem => (mapInsert mem.github none p.1, mapInsert mem.github [] p.2))
          (c, h)).2 u =
      if u ∈ members.map TeamMember.github then some ([] : List UserStatus)
      else mapLookup h u) := by
  induction members generalizing c h with
  | nil => simp
  | cons mem rest ih =>
      simp only [List.foldl_cons]
      rcases ih (mapInsert mem.github none c) (mapInsert mem.github [] h) with ⟨ih1, ih2⟩
      constructor
      · rw [ih1, mapLookup_mapInsert]
        by_cases hu : u ∈ rest.map TeamMember.github
        · simp [hu]
        · by_cases he : u = mem.github
          · simp [hu, he]
          · simp [hu, he]
      · rw [ih2, mapLookup_mapInsert]
        by_cases hu : u ∈ rest.map TeamMember.github
        · simp [hu]
        · by_cases he : u = mem.github
          · simp [hu, he]
          · simp [hu, he]

theorem mapLookup_rosterMaps_current (members : List TeamMember) (u : String) :
    mapLookup (rosterMaps members).1 u =
      if u ∈ members.map TeamMember.github then some none else none := by
  have := (rosterFold_lookup members [] [] u).1
  rw [rosterMaps]
  rw [this]
  rfl

theorem mapLookup_rosterMaps_history (members : List TeamMember) (u : String) :
    mapLookup (rosterMaps members).2 u =
      if u ∈ members.map TeamMember.github then some ([] : List UserStatus) else none := by
  have := (rosterFold_lookup members [] [] u).2
  rw [rosterMaps]
  rw [this]
  rfl

theorem buildRows_ok_of_covered (history : List (String × List UserStatus))
    (current : List (String × Option UserStatus)) (acc : String)
    (h : ∀ u ∈ current.map Prod.fst, (mapLookup history u).isSome = true) :
    buildRows history current acc = .ok (acc ++ specRows history current) := by
  induction current generalizing acc with
  | nil => simp [buildRows, specRows, String.append_empty]
  | cons p rest ih =>
      obtain ⟨user, status⟩ := p
      have hu : (mapLookup history user).isSome = true := h user (by simp)
      rcases Option.isSome_iff_exists.mp hu with ⟨statuses, hst⟩
      simp only [buildRows, hst, specRows, specRow]
      rw [ih _ (fun u hmem =>
        h u (by rw [List.map_cons]; exact List.mem_cons_of_mem _ hmem))]
      simp only [hst, Option.getD_some]
      rw [String.append_assoc]

theorem buildRows_error_of_missing (history : List (String × List UserStatus))
    (current : List (String × Option UserStatus)) (acc : String)
    (h : ∃ u ∈ current.map Prod.fst, mapLookup history u = none) :
    ∃ u, u ∈ current.map Prod.fst ∧ mapLookup history u = none ∧
      buildRows history current acc =
        .error ("user " ++ u ++ " not present in history statuses list") := by
  induction current generalizing acc with
  | nil => simp at h
  | cons p rest ih =>
      obtain ⟨user, status⟩ := p
      by_cases hu : mapLookup history user = none
      · exact ⟨user, by simp, hu, by simp [buildRows, hu]⟩
      · rcases h with ⟨u, humem, hun⟩
        have humem2 : u ∈ rest.map Prod.fst := by
          rw [List.map_cons] at humem
          rcases List.mem_cons.mp humem with he | he
          · rw [he] at hun
            exact absurd hun hu
          · exact he
        rcases Option.ne_none_iff_exists.mp hu with ⟨statuses, hst⟩
        rcases ih _ ⟨u, humem2, hun⟩ with ⟨u2, hmem2, hnone2, heq2⟩
        refine ⟨u2, by simp [hmem2], hnone2, ?_⟩
        simp only [buildRows, hst.symm]
        exact heq2

/-- C4: when every participant of current has a history entry, render
succeeds and produces the header, the literal separator row and one row per
participant in the iteration order of current (the key-sorted BTreeMap
order, which mapInsert preserves); each past vote is a strike-through link
and the current vote a bold link, as pinned down by the Barbara end-to-end
example, and a participant with no current vote gets an empty state cell. -/
theorem build_status_comment_renders_table
    (history : List (String × List UserStatus))
    (current : List (String × Option UserStatus))
    (h : ∀ u ∈ current.map Prod.fst, (mapLookup history u).isSome = true) :
    (build_status_comment history current =
      .ok ("| Team member | State |\n|-------------|-------|" ++
        specRows history current)) ∧
    (∀ (k : String) (v : Option UserStatus) (m : List (String × Option UserStatus)),
      (m.map Prod.fst).Sorted (fun a b => a < b) →
        ((mapInsert k v m).map Prod.fst).Sorted (fun a b => a < b)) ∧
    (build_status_comment barbaraHistorySample barbaraCurrentSample =
      .ok ("| Team member | State |\n|-------------|-------|\n| @Barbara | [~~hold~~](A)  [~~merge~~](B)  [**merge**](B) |")) ∧
    (build_status_comment [("X", [])] [("X", none)] =
      .ok ("| Team member | State |\n|-------------|-------|\n| @X |  |")) := by
  refine ⟨buildRows_ok_of_covered history current _ h,
    fun k v m hm => mapInsert_keys_sorted k v m hm, ?_, ?_⟩
  · rfl
  · rfl

/-- Witness for C4: the Barbara single-participant table, with the coverage
hypothesis discharged by evaluation. -/
theorem build_status_comment_renders_table_witness :
    build_status_comment barbaraHistorySample barbaraCurrentSample =
      .ok ("| Team member | State |\n|-------------|-------|" ++
        specRows barbaraHistorySample barbaraCurrentSample) :=
  (build_status_comment_renders_table barbaraHistorySample barbaraCurrentSample
    (by decide)).1

/-- C5: when some participant of current is absent from history, render
fails with the inconsistency error naming that participant instead of
producing a table. -/
theorem build_status_comment_missing_participant
    (history : List (String × List UserStatus))
    (current : List (String × Option UserStatus))
    (h : ∃ u ∈ current.map Prod.fst, mapLookup history u = none) :
    ∃ u, u ∈ current.map Prod.fst ∧ mapLookup history u = none ∧
      build_status_comment history current =
        .error ("user " ++ u ++ " not present in history statuses list") :=
  buildRows_error_of_missing history current _ h

/-- Witness for C5: Martin votes but is missing from the history mapping,
reproducing the error message of the repository test. -/
theorem build_status_comment_missing_participant_witness :
    ∃ u, u ∈ martinCurrentSample.map Prod.fst ∧
      mapLookup martinHistorySample u = none ∧
      build_status_comment martinHistorySample martinCurrentSample =
        .error ("user " ++ u ++ " not present in history statuses list") :=
  build_status_comment_missing_participant martinHistorySample martinCurrentSample
    ⟨"Martin", by decide, by decide⟩

/-- C6: a vote command on an issue with an existing ballot never persists a
second DecisionState, posts the concurrent-ballots-unsupported comment, and
returns success. -/
theorem handle_command_existing_ballot (inp : CommandInput) (st : DecisionState)
    (h : inp.existing_state = some st) :
    (handle_command inp).inserted_state = none ∧
    (handle_command inp).comments =
      ["We don\x27t support having more than one vote yet. Coming soon :)"] ∧
    (handle_command inp).error = none := by
  unfold handle_command
  rw [h]
  exact ⟨rfl, rfl, rfl⟩

/-- Witness for C6: repeating the sample vote while the sample ballot is
open. -/
theorem handle_command_existing_ballot_witness :
    (handle_command sampleRepeatInput).inserted_state = none ∧
    (handle_command sampleRepeatInput).comments =
      ["We don\x27t support having more than one vote yet. Coming soon :)"] ∧
    (handle_command sampleRepeatInput).error = none :=
  handle_command_existing_ballot sampleRepeatInput sampleState rfl

/-- C7: a first vote from a user who fails the membership check, including a
failed lookup unwrapped to non-membership, posts the permission-denied
comment, returns success, and persists no DecisionState. -/
theorem handle_command_non_member (inp : CommandInput)
    (h1 : inp.existing_state = none)
    (h2 : inp.is_team_member = none ∨ inp.is_team_member = some false) :
    (handle_command inp).comments =
      ["Only team members can be part of the decision process."] ∧
    (handle_command inp).error = none ∧
    (handle_command inp).inserted_state = none := by
  unfold handle_command
  rw [h1]
  rcases h2 with h2 | h2 <;> rw [h2] <;> exact ⟨rfl, rfl, rfl⟩

/-- Witness for C7: the sample vote from a non-member, and the sample vote
when the membership lookup fails. -/
theorem handle_command_non_member_witness :
    (handle_command sampleNonMemberInput).inserted_state = none ∧
    (handle_command sampleLookupFailInput).inserted_state = none :=
  ⟨(handle_command_non_member sampleNonMemberInput rfl (Or.inr rfl)).2.2,
    (handle_command_non_member sampleLookupFailInput rfl (Or.inl rfl)).2.2⟩

/-- C1: a first vote with no existing ballot, a passing membership check, a
supplied team name and a resolved roster persists a DecisionState whose
start_date is now and whose end_date is ten days later, whose current maps
every roster member to no vote and the invoking user to their cast vote,
whose history maps exactly those keys to empty sequences (so every key of
current also exists in history), and in the same operation schedules the
SingleExecution decision-resolution job with expected_time equal to end_date
and the message, issue-reference URL and resolution as metadata. -/
theorem handle_command_first_vote (inp : CommandInput) (tn : String) (team : Team)
    (h1 : inp.existing_state = none)
    (h2 : inp.is_team_member = some true)
    (h3 : inp.team_name = some tn)
    (h4 : inp.team_lookup = .ok (some team)) :
    ∃ st : DecisionState,
      (handle_command inp).inserted_state = some st ∧
      st.start_date = inp.now ∧
      st.end_date = st.start_date + 10 * DAY_IN_SECONDS ∧
      (∀ u : String, mapLookup st.current u =
        if u = inp.user_login then
          some (some { comment_id := inp.comment_url, text := inp.comment_body,
                       resolution := inp.resolution })
        else if u ∈ team.members.map TeamMember.github then some none
        else none) ∧
      (∀ u : String, mapLookup st.history u =
        if u = inp.user_login ∨ u ∈ team.members.map TeamMember.github then
          some ([] : List UserStatus)
        else none) ∧
      (∀ u : String, (mapLookup st.current u).isSome = true →
        (mapLookup st.history u).isSome = true) ∧
      (handle_command inp).inserted_job = some
        { name := "decision_process_action", job_type := .single_execution,
          expected_time := st.end_date,
          metadata := { message := "some message",
                        get_issue_url :=
                          inp.repo_url ++ "/issues/" ++ toString inp.issue_number,
                        status := inp.resolution } } := by
  refine ⟨{ issue_number := inp.issue_number, initiator := inp.user_login,
            start_date := inp.now, end_date := inp.now + 10 * DAY_IN_SECONDS,
            current := mapInsert inp.user_login
              (some { comment_id := inp.comment_url, text := inp.comment_body,
                      resolution := inp.resolution }) (rosterMaps team.members).1,
            history := mapInsert inp.user_login ([] : List UserStatus)
              (rosterMaps team.members).2,
            resolution := inp.resolution }, ?_, rfl, rfl, ?_, ?_, ?_, ?_⟩
  · simp only [handle_command, h1, h2, h3, h4]
    simp only [Option.getD_some, Bool.not_true, Bool.false_eq_true, if_false]
    split <;> rfl
  · intro u
    rw [mapLookup_mapInsert]
    by_cases hu : u = inp.user_login
    · simp [hu]
    · rw [if_neg hu, if_neg hu, mapLookup_rosterMaps_current]
  · intro u
    rw [mapLookup_mapInsert]
    by_cases hu : u = inp.user_login
    · simp [hu]
    · rw [if_neg hu, mapLookup_rosterMaps_history]
      by_cases hr : u ∈ team.members.map TeamMember.github
      · simp [hu, hr]
      · simp [hu, hr]
  · intro u hs
    rw [mapLookup_mapInsert] at hs ⊢
    by_cases hu : u = inp.user_login
    · simp [hu]
    · rw [if_neg hu] at hs ⊢
      rw [mapLookup_rosterMaps_current] at hs
      rw [mapLookup_rosterMaps_history]
      by_cases hr : u ∈ team.members.map TeamMember.github
      · simp [hr]
      · rw [if_neg hr] at hs
        simp at hs
  · simp only [handle_command, h1, h2, h3, h4]
    simp only [Option.getD_some, Bool.not_true, Bool.false_eq_true, if_false]
    split <;> rfl

/-- Witness for C1: the sample first vote persists a ballot opening now and
closing ten days later. -/
theorem handle_command_first_vote_witness :
    ∃ st : DecisionState,
      (handle_command sampleVoteInput).inserted_state = some st ∧
      st.start_date = sampleVoteInput.now ∧
      st.end_date = st.start_date + 10 * DAY_IN_SECONDS :=
  Exists.imp (fun _ h => ⟨h.1, h.2.1, h.2.2.1⟩)
    (handle_command_first_vote sampleVoteInput "lang" sampleTeam rfl rfl rfl rfl)

/-- C8: the decision-resolution job handler, run with parsed metadata,
swallows an issue-fetch failure (logging it and returning success with no
ping posted) and, on a successful fetch of an issue whose decision state
exists, returns success having posted exactly one ping comment addressed to
all keys of the state's current mapping and announcing the resolution from
the metadata. -/
theorem decision_process_run_spec (metadata : DecisionProcessActionMetadata)
    (fetch : Except String Issue) (states : Nat → Option DecisionState) :
    (∀ e, fetch = .error e →
      decision_process_run metadata fetch states =
        some { pings := [], logged_error := true }) ∧
    (∀ (issue : Issue) (st : DecisionState), fetch = .ok issue →
      states issue.number = some st →
      decision_process_run metadata fetch states =
        some { pings := [(st.current.map Prod.fst,
                 "The final comment period has resolved, with a decision to **" ++
                   metadata.status.display ++ "**. Ping involved people once again.")],
               logged_error := false }) := by
  constructor
  · intro e he
    simp only [decision_process_run, he]
  · intro issue st hf hs
    simp only [decision_process_run, hf, hs]

/-- Witness for C8: a failed fetch is swallowed, and a successful fetch of
the sample issue pings both participants of the sample ballot. -/
theorem decision_process_run_spec_witness :
    decision_process_run sampleMetadata (.error "boom") sampleStates =
      some { pings := [], logged_error := true } ∧
    decision_process_run sampleMetadata (.ok sampleIssue) sampleStates =
      some { pings := [(["alice", "bob"],
               "The final comment period has resolved, with a decision to **merge**. Ping involved people once again.")],
             logged_error := false } :=
  ⟨(decision_process_run_spec sampleMetadata (.error "boom") sampleStates).1 "boom" rfl,
    (decision_process_run_spec sampleMetadata (.ok sampleIssue) sampleStates).2
      sampleIssue sampleState rfl rfl⟩

end Triagebot
